import Mathlib

/-!
Verification of the oracle-fusion-client-mock repository.

This file gives a shallow embedding, in Lean 4, of the core of the mock
Oracle Fusion client: the JSON-like record model, the data-loader singleton
lifecycle, the query-filter interpreters (the base-service one and the
sales-order one), the pagination and sort primitives, and the list/get
operations built from them.  Theorems at the end settle the behavioural
claims about this code.

Modelling conventions (Python source to Lean):

* JSON scalars are modelled by `Value`.  Python ints and floats are both
  modelled as rationals; binary floating-point rounding is outside the
  modelled fragment (no claim here depends on it).
* Python dicts holding records are modelled as association lists
  (`Rec`), with `dict.get` as first-match lookup and insertion-order
  preservation.  Key uniqueness is as in the JSON source data.
* Fallible Python code (raise) is modelled with `Except`; a function whose
  body cannot raise is total.
* Python's `int(...)` and `float(...)` string conversions are modelled on
  their ASCII fragment (optional surrounding whitespace, optional sign,
  decimal digits, and for float a single point); underscore grouping,
  unicode digits and exponents are outside the modelled fragment.
* Python's `str.strip` / regex `\s` are modelled with the ASCII whitespace
  characters recognised by `Char.isWhitespace`; regex `\w` with ASCII
  alphanumerics and underscore.  Unicode-only differences are outside the
  modelled fragment.
-/

namespace OracleFusionMock

/-- A JSON-like value as stored in the mock data records.  Numbers (Python
int and float) are modelled as rationals. -/
inductive Value where
  | vNull : Value
  | vBool : Bool → Value
  | vNum : ℚ → Value
  | vStr : String → Value
  | vArr : List Value → Value
  | vObj : List (String × Value) → Value

/-- A record: a Python dict from field name to value, as an association
list in insertion order. -/
abbrev Rec := List (String × Value)

/-- Python `dict.get(field)`: the value of the first binding of `field`,
if any. -/
def Rec.get (r : Rec) (field : String) : Option Value :=
  (r.find? (fun p => p.1 = field)).map (fun p => p.2)

/-- Python `field in dict`. -/
def Rec.hasField (r : Rec) (field : String) : Bool :=
  r.any (fun p => p.1 = field)

/-- Python dict item assignment `r[field] = v` on a dict that already has
`field`: the binding is replaced in place (insertion order kept). -/
def Rec.setField (r : Rec) (field : String) (v : Value) : Rec :=
  r.map (fun p => if p.1 = field then (field, v) else p)

/-- Python `r.pop(field, None)`: the dict without the binding of `field`. -/
def Rec.removeField (r : Rec) (field : String) : Rec :=
  r.filter (fun p => p.1 ≠ field)

/-- Python truthiness of a stored value (`bool(v)`). -/
def Value.truthy : Value → Bool
  | .vNull => false
  | .vBool b => b
  | .vNum q => q ≠ 0
  | .vStr s => s ≠ ""
  | .vArr l => !l.isEmpty
  | .vObj l => !l.isEmpty

/-- Python `str(v)` for scalar values.  For strings this is the string
itself, which is the only case the theorems below rely on; for the other
constructors the rendering is idealised. -/
def Value.pyStr : Value → String
  | .vNull => "None"
  | .vBool true => "True"
  | .vBool false => "False"
  | .vNum q => toString q
  | .vStr s => s
  | .vArr _ => "[...]"
  | .vObj _ => "{...}"

/-- Errors that the embedded Python code can raise. -/
inductive PyError where
  | typeError : PyError
  | valueError : String → PyError
  | notFound : String → PyError
  | fileNotFound : String → PyError
deriving DecidableEq

/-- ASCII model of the regex class `\w`. -/
def isWordChar (c : Char) : Bool :=
  c.isAlphanum || c = '_'

/-- ASCII model of regex `\s` and of the characters `str.strip`
removes. -/
def isPySpace (c : Char) : Bool :=
  c = ' ' || c = '\t' || c = '\n' || c = '\r' || c = '\x0b' || c = '\x0c'

/-- Python `s.strip()` as a character list. -/
def pyStripChars (s : String) : List Char :=
  ((s.toList.dropWhile isPySpace).reverse.dropWhile isPySpace).reverse

/-- Python `s.strip()`. -/
def pyStrip (s : String) : String :=
  String.mk (pyStripChars s)

/-- Python `s.split(sep)` on a character list (single-character
separator, empties kept). -/
def splitOnChar (sep : Char) : List Char → List (List Char)
  | [] => [[]]
  | c :: rest =>
      match splitOnChar sep rest with
      | [] => if c = sep then [[], []] else [[c]]
      | cur :: parts => if c = sep then [] :: cur :: parts else (c :: cur) :: parts

/-- Python `s.split(sep)` for a single-character separator. -/
def pySplit (s : String) (sep : Char) : List String :=
  (splitOnChar sep s.toList).map String.mk

/-- Python `s.lower()` (ASCII model). -/
def strToLower (s : String) : String :=
  String.mk (s.toList.map Char.toLower)

/-- Digits to the natural number they denote, most significant first. -/
def digitsToNat (l : List Char) : Nat :=
  l.foldl (fun a c => a * 10 + (c.toNat - 48)) 0

/-- Python `int(s)` on its ASCII fragment: surrounding whitespace, an
optional sign, then one or more decimal digits.  `none` models
`ValueError`. -/
def pyInt? (s : String) : Option Int :=
  let t := pyStripChars s
  let core : Int × List Char :=
    match t with
    | '+' :: r => (1, r)
    | '-' :: r => (-1, r)
    | r => (1, r)
  if core.2 ≠ [] ∧ core.2.all Char.isDigit then
    some (core.1 * digitsToNat core.2)
  else none

/-- Python `float(s)` on the fragment with a decimal point: surrounding
whitespace, optional sign, digits, a point, digits, with at least one
digit in total.  `none` models `ValueError`. -/
def pyFloat? (s : String) : Option ℚ :=
  let t := pyStripChars s
  let core : ℚ × List Char :=
    match t with
    | '+' :: r => (1, r)
    | '-' :: r => (-1, r)
    | r => (1, r)
  let ip := core.2.takeWhile Char.isDigit
  match core.2.dropWhile Char.isDigit with
  | '.' :: fp =>
      if fp.all Char.isDigit ∧ (ip ≠ [] ∨ fp ≠ []) then
        some (core.1 * ((digitsToNat ip : ℚ) + (digitsToNat fp : ℚ) / (10 : ℚ) ^ fp.length))
      else none
  | _ => none

/-! ## Pagination

`BaseMockService._apply_pagination` (services/base.py) and
`SalesOrderMockClient._apply_pagination` (sales_orders/client.py) both
slice with Python semantics: `items[offset : offset + limit]`.  Neither
contains any validation or `raise`; both are total. -/

/-- Normalise one Python slice endpoint `i` against length `n`:
negative endpoints count from the end, and both ends are clamped. -/
def pySliceIdx (n : Nat) (i : Int) : Nat :=
  if i < 0 then ((n : Int) + i).toNat else min i.toNat n

/-- Python `l[a : b]` (step 1). -/
def pySlice {α : Type} (l : List α) (a b : Int) : List α :=
  (l.take (pySliceIdx l.length b)).drop (pySliceIdx l.length a)

/-- `BaseMockService._apply_pagination` (services/base.py, lines 29-48):
returns `(items[offset : offset + limit], (offset + limit) < total)`.
The body contains no validation and cannot raise. -/
def applyPaginationBase (items : List Rec) (limit offset : Int) : List Rec × Bool :=
  let total := items.length
  let paginated := pySlice items offset (offset + limit)
  (paginated, decide (offset + limit < (total : Int)))

/-- `SalesOrderMockClient._apply_pagination` (sales_orders/client.py,
lines 159-168): returns `(items[offset : offset + limit], total)` where
`total` is the length of the un-sliced list. -/
def applyPaginationSales (items : List Rec) (limit offset : Int) : List Rec × Nat :=
  (pySlice items offset (offset + limit), items.length)

/-! Helper lemmas about slicing. -/

theorem pySlice_length_nonneg {α : Type} (l : List α) (a b : Int)
    (ha : 0 ≤ a) (hb : 0 ≤ b) :
    (pySlice l a b).length = min b.toNat l.length - min a.toNat l.length := by
  unfold pySlice pySliceIdx
  rw [if_neg (by omega), if_neg (by omega)]
  simp only [List.length_drop, List.length_take]
  omega

/-- A Python slice is a contiguous piece of the original list. -/
theorem pySlice_append {α : Type} (l : List α) (a b : Int) :
    ∃ front back, l = front ++ pySlice l a b ++ back := by
  refine ⟨(l.take (pySliceIdx l.length b)).take (pySliceIdx l.length a),
          l.drop (pySliceIdx l.length b), ?_⟩
  unfold pySlice
  rw [List.take_append_drop, List.take_append_drop]

/-! ## Dataset and the singleton data loaders

`MockDataLoader` (data_loader.py) and `SalesOrderDataLoader`
(sales_orders/data_loader.py) are singletons: the class attribute
`_instance` holds the one instance and `_data` the loaded JSON document.
We model the class-level state as an `Option LoaderState` (`none` when no
initialised instance exists) and the file system as a partial map from
path to parsed document.  A failed load leaves a half-constructed Python
instance whose `_initialized` flag is false; behaviourally that is the
same as no instance, which is how it is modelled here. -/

/-- A parsed JSON document: entity-type name to list of records. -/
abbrev Dataset := List (String × List Rec)

/-- Python `data.get(name, [])`. -/
def getEntities (d : Dataset) (name : String) : List Rec :=
  match d.find? (fun p => p.1 = name) with
  | some p => p.2
  | none => []

/-- An initialised data-loader instance: the path it loaded from and the
loaded document (the class attribute `_data`). -/
structure LoaderState where
  dataPath : String
  data : Dataset

/-- The class-level singleton state of a loader class. -/
abbrev Session := Option LoaderState

/-- Python `==` between a looked-up field value and a numeric key
(numbers compare across int/float/bool, never equal to strings). -/
def numKeyEq (o : Option Value) (k : ℚ) : Bool :=
  match o with
  | some (.vNum q) => decide (q = k)
  | some (.vBool b) => decide ((if b then (1 : ℚ) else 0) = k)
  | _ => false

/-- Python `==` between a looked-up field value and a string key. -/
def strKeyEq (o : Option Value) (k : String) : Bool :=
  match o with
  | some (.vStr s) => decide (s = k)
  | _ => false

/-- Lookup in a primary index built by one pass over `recs`, indexing each
record that has `field` under its value there (later records overwrite
earlier ones with an equal key, as Python dict assignment does), then
`dict.get(k)` with a numeric key. -/
def indexGetNum (recs : List Rec) (field : String) (k : ℚ) : Option Rec :=
  (recs.filter (fun r => numKeyEq (r.get field) k)).getLast?

/-- As `indexGetNum` with a string key. -/
def indexGetStr (recs : List Rec) (field : String) (k : String) : Option Rec :=
  (recs.filter (fun r => strKeyEq (r.get field) k)).getLast?

/-- The default `db.json` location used by `MockDataLoader.__init__` when
no path is given. -/
def defaultDataPath : String :=
  "oracle-fusion-client/oracle-fusion-mock-server/db.json"

/-- `MockDataLoader.__new__` plus `__init__` (data_loader.py, lines
33-63): if an initialised instance exists it is returned unchanged (the
`_initialized` early return) regardless of the `data_path` argument;
otherwise the file at `data_path` (or the default) is loaded and indexed
and the instance recorded in the class state.  A missing file raises
`FileNotFoundError`. -/
def constructLoader (fs : String → Option Dataset) (s : Session)
    (dataPath : Option String) : Except PyError (LoaderState × Session) :=
  match s with
  | some l => .ok (l, some l)
  | none =>
      match fs (dataPath.getD defaultDataPath) with
      | none => .error (.fileNotFound (dataPath.getD defaultDataPath))
      | some d =>
          .ok (⟨dataPath.getD defaultDataPath, d⟩, some ⟨dataPath.getD defaultDataPath, d⟩)

/-- `MockDataLoader.reset` (data_loader.py, lines 177-181): clears the
singleton instance and the loaded data. -/
def resetLoader (_ : Session) : Session := none

/-- `OracleFusionMockClient.__init__` (client.py, lines 75-85): resets the
loader singleton when an explicit `data_path` is supplied, then constructs
the loader.  `SalesOrderMockClient.__init__` (sales_orders/client.py,
lines 58-85) has the same reset-then-construct behaviour. -/
def clientInit (fs : String → Option Dataset) (s : Session)
    (dataPath : Option String) : Except PyError (LoaderState × Session) :=
  let s' := if dataPath.isSome then resetLoader s else s
  constructLoader fs s' dataPath

/-- `MockDataLoader.purchase_orders`: `data.get("purchaseOrders", [])`. -/
def LoaderState.purchaseOrders (st : LoaderState) : List Rec :=
  getEntities st.data "purchaseOrders"

/-- `MockDataLoader.get_purchase_order` (data_loader.py, lines 153-155):
`purchase_orders_by_id.get(po_header_id)` — an explicit `None` on a
missing key, never an exception. -/
def LoaderState.getPurchaseOrder (st : LoaderState) (poHeaderId : Int) : Option Rec :=
  indexGetNum st.purchaseOrders "POHeaderId" (poHeaderId : ℚ)

/-- The compound-id marker stripped by `get_by_id`. -/
def markerChars : List Char :=
  ['A', 'A', 'B', 'O', 'R', 'A', 'Q', 'L', 'E', 'A', 'B', 'O', 'R', 'A', 'Q', 'L', 'E']

/-- Python `s.replace("AABORAQLEABORAQLE", "")`: remove the left-to-right
non-overlapping occurrences of the marker. -/
def removeMarker : List Char → List Char
  | [] => []
  | c :: rest =>
      if (c :: rest).take 17 = markerChars then removeMarker (rest.drop 16)
      else c :: removeMarker rest
termination_by cs => cs.length
decreasing_by
  · simp only [List.length_drop, List.length_cons]
    omega
  · simp only [List.length_cons]
    omega

/-- The id-parsing step of `MockPurchaseOrderService.get_by_id`
(services/purchase_orders.py, lines 99-104): `int(po_id)`, falling back to
`int(po_id.replace("AABORAQLEABORAQLE", ""))`; a second failure raises
`ValueError` from `int`. -/
def parseOrderId (poId : String) : Except PyError Int :=
  match pyInt? poId with
  | some n => .ok n
  | none =>
      match pyInt? (String.mk (removeMarker poId.toList)) with
      | some n => .ok n
      | none => .error (.valueError ("invalid literal for int: " ++ poId))

/-- `MockPurchaseOrderService.get_by_id` (services/purchase_orders.py,
lines 81-110).  The pydantic `model_validate` shaping is modelled as the
identity on the record. -/
def poGetById (st : LoaderState) (poId : String) : Except PyError Rec :=
  match parseOrderId poId with
  | .error e => .error e
  | .ok headerId =>
      match st.getPurchaseOrder headerId with
      | none => .error (.valueError ("Purchase order not found: " ++ poId))
      | some po => .ok po

/-! ## The sales-order query filter

`SalesOrderMockClient._apply_query_filter` (sales_orders/client.py, lines
103-157): the query is split on semicolons; each condition is stripped,
empty conditions are skipped, each remaining condition is matched against
the regex `(\w+)(>=|<=|=)(.+)` (no match: the condition is skipped), the
value is coerced (float if it contains a point, else int, else kept as a
string) and the surviving items are filtered clause by clause. -/

/-- A recognised comparison operator. -/
inductive Op where
  | eq : Op
  | ge : Op
  | le : Op
deriving DecidableEq

/-- A coerced literal: numeric or string. -/
inductive Lit where
  | num : ℚ → Lit
  | str : String → Lit
deriving DecidableEq

/-- The value group of the clause regex: `(.+)` takes every following
character up to the end or the first newline, and must be non-empty. -/
def mkClauseVal (f : String) (op : Op) (v : List Char) :
    Option (String × Op × String) :=
  let val := v.takeWhile (fun c => c ≠ '\n')
  if val.isEmpty then none else some (f, op, String.mk val)

/-- Python `re.match(r"(\w+)(>=|<=|=)(.+)", cond)`: a non-empty leading
run of word characters, then the operator (`>=` and `<=` are tried before
`=`), then the non-empty value.  Because `\w` matches no operator
character, only the maximal word run can be followed by an operator, so
regex backtracking cannot produce any other split. -/
def clauseMatch (cond : String) : Option (String × Op × String) :=
  let cs := cond.toList
  let f := cs.takeWhile isWordChar
  if f.isEmpty then none else
  match cs.dropWhile isWordChar with
  | '>' :: '=' :: v => mkClauseVal (String.mk f) Op.ge v
  | '<' :: '=' :: v => mkClauseVal (String.mk f) Op.le v
  | '=' :: v => mkClauseVal (String.mk f) Op.eq v
  | _ => none

/-- The numeric coercion of a clause value (sales_orders/client.py, lines
135-142): float if the text contains a point, otherwise int, keeping the
string on `ValueError`. -/
def coerceValue (v : String) : Lit :=
  if v.toList.contains '.' then
    match pyFloat? v with
    | some q => .num q
    | none => .str v
  else
    match pyInt? v with
    | some n => .num (n : ℚ)
    | none => .str v

/-- Python `==` between a stored value and a coerced literal: numbers
(int/float/bool) compare numerically, strings compare as strings, any
cross-type comparison is `False`, never an error. -/
def valueEqLit : Value → Lit → Bool
  | .vNum q, .num p => decide (q = p)
  | .vBool b, .num p => decide ((if b then (1 : ℚ) else 0) = p)
  | .vStr s, .str t => decide (s = t)
  | _, _ => false

/-- Python `stored >= literal`: defined within numbers and within strings,
a `TypeError` otherwise. -/
def valueGeLit : Value → Lit → Except PyError Bool
  | .vNum q, .num p => .ok (decide (p ≤ q))
  | .vBool b, .num p => .ok (decide (p ≤ (if b then (1 : ℚ) else 0)))
  | .vStr s, .str t => .ok (decide (t ≤ s))
  | _, _ => .error .typeError

/-- Python `stored <= literal`. -/
def valueLeLit : Value → Lit → Except PyError Bool
  | .vNum q, .num p => .ok (decide (q ≤ p))
  | .vBool b, .num p => .ok (decide ((if b then (1 : ℚ) else 0) ≤ p))
  | .vStr s, .str t => .ok (decide (s ≤ t))
  | _, _ => .error .typeError

/-- One parsed clause evaluated on one record, with Python's semantics:
for `=` a missing field or `None` compares unequal; for `>=`/`<=` the
guard `item.get(field) is not None` makes a missing or `None` field fail
the clause, and an incomparable pair raises `TypeError`. -/
def evalClause (r : Rec) (c : String × Op × Lit) : Except PyError Bool :=
  match c.2.1 with
  | .eq =>
      .ok (match r.get c.1 with
           | some v => valueEqLit v c.2.2
           | none => false)
  | .ge =>
      match r.get c.1 with
      | none => .ok false
      | some .vNull => .ok false
      | some v => valueGeLit v c.2.2
  | .le =>
      match r.get c.1 with
      | none => .ok false
      | some .vNull => .ok false
      | some v => valueLeLit v c.2.2

/-- A Python list comprehension with a fallible predicate: items are
tested left to right and the first raised error aborts the whole
comprehension. -/
def filterE (p : Rec → Except PyError Bool) : List Rec → Except PyError (List Rec)
  | [] => .ok []
  | x :: xs =>
      match p x with
      | .error e => .error e
      | .ok b =>
          match filterE p xs with
          | .error e => .error e
          | .ok rest => .ok (if b then x :: rest else rest)

/-- The clause loop of `SalesOrderMockClient._apply_query_filter`:
conditions are stripped, empty or unmatched conditions contribute nothing,
and each matched condition narrows the surviving items. -/
def applyClauses : List String → List Rec → Except PyError (List Rec)
  | [], acc => .ok acc
  | c :: cs, acc =>
      if pyStrip c = "" then applyClauses cs acc
      else
        match clauseMatch (pyStrip c) with
        | none => applyClauses cs acc
        | some (f, op, vstr) =>
            match filterE (fun r => evalClause r (f, op, coerceValue vstr)) acc with
            | .error e => .error e
            | .ok acc' => applyClauses cs acc'

/-- `SalesOrderMockClient._apply_query_filter` (sales_orders/client.py,
lines 103-157). -/
def applyQueryFilterSales (items : List Rec) (query : Option String) :
    Except PyError (List Rec) :=
  match query with
  | none => .ok items
  | some q => if q = "" then .ok items else applyClauses (pySplit q ';') items

/-- The clauses a condition list parses to: strip, drop what the clause
regex does not match, coerce the value. -/
def clausesOf (cs : List String) : List (String × Op × Lit) :=
  cs.filterMap (fun c =>
    (clauseMatch (pyStrip c)).map (fun t => (t.1, t.2.1, coerceValue t.2.2)))

/-- The clauses a query parses to: split on semicolons, then parse each
condition. -/
def parsedClauses (q : String) : List (String × Op × Lit) :=
  clausesOf (pySplit q ';')

/-- A clause holds on a record (errors read as false; only used where the
compatibility hypothesis rules errors out). -/
def clauseOk (r : Rec) (c : String × Op × Lit) : Bool :=
  match evalClause r c with
  | .ok b => b
  | .error _ => false

/-- Evaluating the clause on the record does not raise. -/
def clauseCompatible (r : Rec) (c : String × Op × Lit) : Bool :=
  match evalClause r c with
  | .ok _ => true
  | .error _ => false

/-! ## The base-service query filter

`BaseMockService._apply_query_filter` (services/base.py, lines 50-94)
recognises a single clause: first the equality regex
`(\w+)='?([^']+)'?`, then the wildcard regex
`(\w+)\s+like\s+'([^']+)'` (case-insensitive), else no filtering. -/

/-- The value group of the equality regex: a non-empty run of non-quote
characters starting at `body`. -/
def eqValTail (fl body : List Char) : Option (String × String) :=
  if (body.takeWhile (fun c => c ≠ '\'')).isEmpty then none
  else some (String.mk fl, String.mk (body.takeWhile (fun c => c ≠ '\'')))

/-- Python `re.match(r"(\w+)='?([^']+)'?", q)`: a non-empty word run, an
equals sign, an optional opening quote, then a non-empty run of non-quote
characters (the value).  Backtracking cannot move the field/operator
split, and when the character after an opening quote is again a quote the
whole match fails. -/
def eqMatchBase (q : String) : Option (String × String) :=
  if (q.toList.takeWhile isWordChar).isEmpty then none
  else
    match q.toList.dropWhile isWordChar with
    | '=' :: '\'' :: r2 => eqValTail (q.toList.takeWhile isWordChar) r2
    | '=' :: r => eqValTail (q.toList.takeWhile isWordChar) r
    | _ => none

/-- The pattern group of the wildcard regex: a non-empty run of non-quote
characters followed by the closing quote. -/
def likeTail (fl r5 : List Char) : Option (String × String) :=
  if (r5.takeWhile (fun ch => ch ≠ '\'')).isEmpty then none
  else
    match r5.dropWhile (fun ch => ch ≠ '\'') with
    | '\'' :: _ => some (String.mk fl, String.mk (r5.takeWhile (fun ch => ch ≠ '\'')))
    | _ => none

/-- The wildcard regex after the field group: whitespace, the keyword
case-insensitively, whitespace, a quote, then the pattern. -/
def likeAfterField (fl r1 : List Char) : Option (String × String) :=
  if (r1.takeWhile isPySpace).isEmpty then none
  else
    match r1.dropWhile isPySpace with
    | a :: b :: c :: d :: r3 =>
        if strToLower (String.mk [a, b, c, d]) = "like" then
          if (r3.takeWhile isPySpace).isEmpty then none
          else
            match r3.dropWhile isPySpace with
            | '\'' :: r5 => likeTail fl r5
            | _ => none
        else none
    | _ => none

/-- Python `re.match(r"(\w+)\s+like\s+'([^']+)'", q, re.IGNORECASE)`. -/
def likeMatchBase (q : String) : Option (String × String) :=
  if (q.toList.takeWhile isWordChar).isEmpty then none
  else likeAfterField (q.toList.takeWhile isWordChar) (q.toList.dropWhile isWordChar)

/-- The base service's equality coercion (services/base.py, lines 76-80):
only `int` is attempted. -/
def coerceEqBase (v : String) : Lit :=
  match pyInt? v with
  | some n => .num (n : ℚ)
  | none => .str v

/-- A token of the translated LIKE regex: a literal character or the
`.*` produced from `*` / `%`. -/
inductive Tok where
  | lit : Char → Tok
  | anyStar : Tok

/-- The token a pattern character translates to. -/
def tokOf (c : Char) : Tok :=
  if c = '*' || c = '%' then Tok.anyStar else Tok.lit c

/-- `pattern.replace("*", ".*").replace("%", ".*")` read as a token
list.  This reading is faithful to the compiled regex exactly when the
non-wildcard pattern characters are regex-literal (no further
metacharacters); the theorems about the LIKE branch restrict patterns
accordingly. -/
def patToks (pat : String) : List Tok :=
  pat.toList.map tokOf

/-- Does the continuation succeed on some suffix of the input?  This is
the Boolean content of backtracking through a wildcard that may consume
any character. -/
def anySuffix (f : List Char → Bool) : List Char → Bool
  | [] => f []
  | x :: xs => f (x :: xs) || anySuffix f xs

/-- Does the continuation succeed on some suffix of the input reachable
by consuming only non-newline characters?  This is the backtracking
through `.*` in a pattern compiled without `re.DOTALL`, where `.` never
matches a newline. -/
def dotSuffix (f : List Char → Bool) : List Char → Bool
  | [] => f []
  | x :: xs => f (x :: xs) || ((decide (¬ x = '\n')) && dotSuffix f xs)

/-- `re.match` of the translated token list: anchored at the start of the
value, case-insensitive, trailing characters allowed; `.*` succeeds when
the rest of the regex matches some suffix reachable without crossing a
newline (the pattern is compiled without `re.DOTALL`). -/
def matchToks : List Tok → List Char → Bool
  | [], _ => true
  | Tok.lit c :: ts, s =>
      match s with
      | [] => false
      | x :: xs => (decide (c.toLower = x.toLower)) && matchToks ts xs
  | Tok.anyStar :: ts, s => dotSuffix (matchToks ts) s

/-- The code-side LIKE test on a field's string form. -/
def likeRegexMatch (pat : String) (s : String) : Bool :=
  matchToks (patToks pat) s.toList

/-- Python truthiness of `dict.get(field)`. -/
def truthyOpt : Option Value → Bool
  | some v => v.truthy
  | none => false

/-- `BaseMockService._apply_query_filter` (services/base.py, lines
50-94). -/
def applyQueryFilterBase (items : List Rec) (query : Option String) : List Rec :=
  match query with
  | none => items
  | some q =>
      if q = "" then items else
      match eqMatchBase q with
      | some fv =>
          let lit := coerceEqBase fv.2
          items.filter (fun r =>
            match r.get fv.1 with
            | some v => valueEqLit v lit
            | none => false)
      | none =>
          match likeMatchBase q with
          | some fp =>
              items.filter (fun r =>
                truthyOpt (r.get fp.1) &&
                  likeRegexMatch fp.2 (Value.pyStr ((r.get fp.1).getD Value.vNull)))
          | none => items

/-- Wildcard matching as the original claim words it: characters match
themselves case-insensitively, `*` and `%` match any sequence of
characters (newlines included), and the match is anchored at the start
of the value only (prefix style).  This is the claim-side definition
compared against the code-side `likeRegexMatch`. -/
def likeSpecGo : List Char → List Char → Bool
  | [], _ => true
  | c :: ps, s =>
      if c = '*' || c = '%' then anySuffix (likeSpecGo ps) s
      else
        match s with
        | [] => false
        | x :: xs => (decide (c.toLower = x.toLower)) && likeSpecGo ps xs

/-- Claim-side wildcard match on strings. -/
def likeSpecMatch (pat s : String) : Bool :=
  likeSpecGo pat.toList s.toList

/-- Wildcard matching as the amended claim words it: as `likeSpecGo`,
except that `*` and `%` match zero or more characters other than
newline. -/
def likeSpecGoNl : List Char → List Char → Bool
  | [], _ => true
  | c :: ps, s =>
      if c = '*' || c = '%' then dotSuffix (likeSpecGoNl ps) s
      else
        match s with
        | [] => false
        | x :: xs => (decide (c.toLower = x.toLower)) && likeSpecGoNl ps xs

/-- Amended-claim-side wildcard match on strings. -/
def likeSpecNlMatch (pat s : String) : Bool :=
  likeSpecGoNl pat.toList s.toList

/-- The value is a string. -/
def Value.isStr : Value → Bool
  | .vStr _ => true
  | _ => false

/-- The field is absent or holds a string on this record. -/
def strFieldOk (r : Rec) (f : String) : Bool :=
  match r.get f with
  | some v => v.isStr
  | none => true

/-- A pattern character inside the modelled regex fragment: literal text
characters (alphanumeric, space, underscore, hyphen) or a wildcard. -/
def plainPatChar (c : Char) : Bool :=
  c.isAlphanum || c = ' ' || c = '_' || c = '-' || c = '*' || c = '%'

/-! ## Sorting

`BaseMockService._apply_order_by` (services/base.py, lines 96-121):
`sorted(items, key=lambda x: x.get(field) or "", reverse=descending)`.
The sort key of a record is its field value when truthy, else the empty
string; Python's `sorted` is a stable comparison sort, raising
`TypeError` as soon as two keys of incomparable types are compared, which
in a mixed string/number key list always happens.  Keys that are lists or
dicts are outside the modelled fragment and are conservatively mapped to
an error. -/

/-- A sort key: a string, a number (bools count as numbers), or an
unmodelled container key. -/
inductive SKey where
  | ks : String → SKey
  | kn : ℚ → SKey
  | kOther : SKey
deriving DecidableEq

/-- `x.get(field) or ""` as a sort key. -/
def sortKey (o : Option Value) : SKey :=
  match o with
  | none => .ks ""
  | some v =>
      if v.truthy then
        match v with
        | .vStr s => .ks s
        | .vNum q => .kn q
        | .vBool _ => .kn 1
        | _ => .kOther
      else .ks ""

/-- The key is a string. -/
def SKey.isStr : SKey → Bool
  | .ks _ => true
  | _ => false

/-- The key is numeric. -/
def SKey.isNum : SKey → Bool
  | .kn _ => true
  | _ => false

/-- The key is an unmodelled container. -/
def SKey.isOther : SKey → Bool
  | .kOther => true
  | _ => false

/-- Comparable keys in weak order: strings lexicographically, numbers
numerically, anything across kinds false. -/
def skLeRaw : SKey → SKey → Bool
  | .ks s, .ks t => decide (s ≤ t)
  | .kn p, .kn q => decide (p ≤ q)
  | _, _ => false

/-- The ordering the sort uses: the plain key order ascending, flipped
for `reverse=True`. -/
def skLe (desc : Bool) (k1 k2 : SKey) : Bool :=
  if desc then skLeRaw k2 k1 else skLeRaw k1 k2

/-- The record ordering used by the sort. -/
def recLe (field : String) (desc : Bool) (a b : Rec) : Prop :=
  skLe desc (sortKey (a.get field)) (sortKey (b.get field)) = true

instance (field : String) (desc : Bool) : DecidableRel (recLe field desc) :=
  fun _ _ => instDecidableEqBool _ _

/-- The `order_by.split(":")` parse (services/base.py, lines 113-115):
field is the first part, descending iff a second part spells "desc"
case-insensitively. -/
def parseOrderBy (ob : String) : String × Bool :=
  let parts := pySplit ob ':'
  (parts.headD "",
   match parts with
   | _ :: d :: _ => decide (strToLower d = "desc")
   | _ => false)

/-- The key list Python's `sorted` would compare contains both strings
and numbers (which raises `TypeError` as soon as such a pair is compared,
and in a mixed list some such pair always is), or a container key
(outside the modelled fragment, conservatively treated as an error). -/
def mixedKeys (items : List Rec) (field : String) : Bool :=
  ((items.map (fun r => sortKey (r.get field))).any SKey.isStr
      && (items.map (fun r => sortKey (r.get field))).any SKey.isNum)
    || (items.map (fun r => sortKey (r.get field))).any SKey.isOther

/-- `BaseMockService._apply_order_by` (services/base.py, lines 96-121):
a stable sort by the truthy-or-empty key (Python's `sorted` is stable,
and `reverse=True` flips comparisons while keeping ties in input order,
which is what insertion on the flipped ordering produces).  A key list
mixing strings and numbers makes Python's `sorted` raise `TypeError`;
container keys are outside the modelled fragment. -/
def applyOrderBy (items : List Rec) (orderBy : Option String) : Except PyError (List Rec) :=
  match orderBy with
  | none => .ok items
  | some ob =>
      if ob = "" then .ok items
      else if mixedKeys items (parseOrderBy ob).1 then .error .typeError
      else .ok (items.insertionSort (recLe (parseOrderBy ob).1 (parseOrderBy ob).2))

/-- The string content of a sort key (junk on other kinds). -/
def strKeyOf (field : String) (r : Rec) : String :=
  match sortKey (r.get field) with
  | SKey.ks s => s
  | _ => ""

/-- The numeric content of a sort key (junk on other kinds). -/
def numKeyOf (field : String) (r : Rec) : ℚ :=
  match sortKey (r.get field) with
  | SKey.kn q => q
  | _ => 0

/-- Ordering records by a projected key, flipped when descending. -/
def keyRel {κ : Type} [LinearOrder κ] (k : Rec → κ) (desc : Bool) (a b : Rec) : Prop :=
  if desc then k b ≤ k a else k a ≤ k b

instance {κ : Type} [LinearOrder κ] (k : Rec → κ) (desc : Bool) :
    DecidableRel (keyRel k desc) :=
  fun a b =>
    match desc with
    | true => decidable_of_iff (k b ≤ k a) (by unfold keyRel; simp)
    | false => decidable_of_iff (k a ≤ k b) (by unfold keyRel; simp)

/-! ## The list/get pipelines -/

/-- The collection envelope the purchase-order service returns (links and
pydantic model shaping omitted: they carry no data the claims mention;
item validation is modelled as the identity). -/
structure CollectionResp where
  items : List Rec
  count : Nat
  hasMore : Bool
  limit : Int
  offset : Int

/-- `MockPurchaseOrderService.list` (services/purchase_orders.py, lines
34-79): keep records having "POHeaderId", filter, sort, paginate, and
return the envelope with `count = len(items)` of the returned page. -/
def poList (st : LoaderState) (limit offset : Int) (query orderBy : Option String) :
    Except PyError CollectionResp :=
  match applyOrderBy
      (applyQueryFilterBase (st.purchaseOrders.filter (fun r => r.hasField "POHeaderId")) query)
      orderBy with
  | .error e => .error e
  | .ok sorted =>
      .ok ⟨(applyPaginationBase sorted limit offset).1,
           (applyPaginationBase sorted limit offset).1.length,
           (applyPaginationBase sorted limit offset).2, limit, offset⟩

/-- The response dict of `SalesOrderMockClient.get_orders`. -/
structure OrdersResp where
  items : List Rec
  count : Nat
  limit : Int
  offset : Int
  hasMore : Bool

/-- `SalesOrderMockClient.get_orders` (sales_orders/client.py, lines
267-300): filter, paginate, and return `count = total` where `total` is
the number of matching records before slicing.  The `int(...)` parsing of
the limit/offset params is modelled by taking them as integers. -/
def getOrders (orders : List Rec) (limit offset : Int) (query : Option String) :
    Except PyError OrdersResp :=
  match applyQueryFilterSales orders query with
  | .error e => .error e
  | .ok items =>
      .ok ⟨(applyPaginationSales items limit offset).1,
           (applyPaginationSales items limit offset).2, limit, offset,
           decide (offset + limit < ((applyPaginationSales items limit offset).2 : Int))⟩

/-! ## The sales-order read and simulated-write operations -/

/-- `SalesOrderDataLoader` salesOrders list. -/
def LoaderState.salesOrders (st : LoaderState) : List Rec :=
  getEntities st.data "salesOrders"

/-- `SalesOrderDataLoader.get_order`: `orders_by_id.get(header_id)`. -/
def salesLookupOrder (st : LoaderState) (headerId : String) : Option Rec :=
  indexGetStr st.salesOrders "HeaderId" headerId

/-- `SalesOrderMockClient.get_order` (sales_orders/client.py, lines
302-335): a missing order raises the not-found error; with
`include_lines` the "lines" value is wrapped as an items object on a
shallow copy; without it the "lines" key is dropped. -/
def getOrder (st : LoaderState) (orderId : String) (includeLines : Bool) :
    Except PyError Rec :=
  match salesLookupOrder st orderId with
  | none => .error (.notFound ("Order not found: " ++ orderId))
  | some order =>
      if includeLines then
        if order.hasField "lines" then
          .ok (order.setField "lines" (.vObj [("items", (order.get "lines").getD .vNull)]))
        else .ok order
      else .ok (order.removeField "lines")

/-- `SalesOrderDataLoader` customers list. -/
def LoaderState.salesCustomers (st : LoaderState) : List Rec :=
  getEntities st.data "customers"

/-- `SalesOrderDataLoader` products list. -/
def LoaderState.salesProducts (st : LoaderState) : List Rec :=
  getEntities st.data "products"

/-- `SalesOrderMockClient.get_customer` (sales_orders/client.py, lines
387-404). -/
def getCustomer (st : LoaderState) (customerId : String) : Except PyError Rec :=
  match indexGetStr st.salesCustomers "CustomerId" customerId with
  | none => .error (.notFound ("Customer not found: " ++ customerId))
  | some c => .ok c

/-- `SalesOrderMockClient.get_product` (sales_orders/client.py, lines
439-456). -/
def getProduct (st : LoaderState) (productId : String) : Except PyError Rec :=
  match indexGetStr st.salesProducts "InventoryItemId" productId with
  | none => .error (.notFound ("Product not found: " ++ productId))
  | some p => .ok p

/-- `SalesOrderMockClient.get_by_id` (sales_orders/client.py, lines
199-222); `expand` arrives as `bool(expand)`. -/
def clientGetById (st : LoaderState) (resource resourceId : String) (expand : Bool) :
    Except PyError Rec :=
  if resource = "salesOrdersForOrderHub" then getOrder st resourceId expand
  else if resource = "accounts" then getCustomer st resourceId
  else if resource = "inventoryItems" then getProduct st resourceId
  else .error (.notFound ("Resource not found: " ++ resource ++ "/" ++ resourceId))

/-- The read `SalesOrderMockClient.patch` performs (sales_orders/client.py,
lines 232-253): with an empty resource and a slash path whose head is the
orders resource, the order is fetched with lines; otherwise
`get_by_id(resource, resource_id)` runs with `expand=None`, that is with
`include_lines=False`. -/
def patchRead (st : LoaderState) (resource resourceId : String) : Except PyError Rec :=
  if resource = "" then
    if resourceId.toList.contains '/' then
      if (pySplit resourceId '/').headD "" = "salesOrdersForOrderHub" then
        getOrder st ((pySplit resourceId '/').getD 1 "") true
      else clientGetById st resource resourceId false
    else clientGetById st resource resourceId false
  else clientGetById st resource resourceId false

/-- `SalesOrderMockClient.update_order` (sales_orders/client.py, lines
337-352) in state-passing form: the body contains no assignment to the
loader, so the class state is returned unchanged; the payload is ignored
and the current order returned via `get_order`. -/
def updateOrder (st : LoaderState) (orderId : String) (_updates : Rec) :
    Except PyError (Rec × LoaderState) :=
  (getOrder st orderId true).map (fun r => (r, st))

/-- `SalesOrderMockClient.patch` (sales_orders/client.py, lines 232-253)
in state-passing form: a pure read, the class state returned unchanged. -/
def patchOp (st : LoaderState) (resource resourceId : String) (_data : Rec) :
    Except PyError (Rec × LoaderState) :=
  (patchRead st resource resourceId).map (fun r => (r, st))

/-! ## Small concrete datasets used by witnesses and counterexamples -/

/-- A sample purchase order. -/
def poRecA : Rec :=
  [("POHeaderId", Value.vNum 1), ("StatusCode", Value.vStr "OPEN"),
   ("Supplier", Value.vStr "ABC Office Supplies Inc")]

/-- A second sample purchase order. -/
def poRecB : Rec :=
  [("POHeaderId", Value.vNum 2), ("StatusCode", Value.vStr "CLOSED"),
   ("Supplier", Value.vStr "Zeta Corp")]

/-- A sample loaded document. -/
def demoDataset : Dataset := [("purchaseOrders", [poRecA, poRecB])]

/-- A loader initialised from the sample document. -/
def demoLoader : LoaderState := ⟨"db.json", demoDataset⟩

/-- A file system carrying the sample document. -/
def demoFs : String → Option Dataset :=
  fun p => if p = "db.json" then some demoDataset else none

/-- Source A for the reset scenarios. -/
def dsA : Dataset := [("purchaseOrders", [[("POHeaderId", Value.vNum 1)]])]

/-- Source B for the reset scenarios. -/
def dsB : Dataset := [("purchaseOrders", [[("POHeaderId", Value.vNum 2)]])]

/-- A file system carrying both sources. -/
def fsAB : String → Option Dataset :=
  fun p => if p = "A" then some dsA else if p = "B" then some dsB else none

/-- A loader initialised from source A. -/
def loaderA : LoaderState := ⟨"A", dsA⟩

/-- A sample sales order with lines. -/
def soRec1 : Rec :=
  [("HeaderId", Value.vStr "SO1"),
   ("lines", Value.vArr [Value.vObj [("LineId", Value.vNum 1)]])]

/-- A sample sales order without lines. -/
def soRec2 : Rec := [("HeaderId", Value.vStr "SO2")]

/-- The sample sales orders. -/
def demoOrders : List Rec := [soRec1, soRec2]

/-- A sales loader carrying the sample orders. -/
def demoSales : LoaderState := ⟨"sales_orders.json", [("salesOrders", demoOrders)]⟩

/-- Sample records for the filter scenarios. -/
def filterDemo : List Rec :=
  [[("CustomerId", Value.vStr "C1"), ("Total", Value.vNum 5)],
   [("CustomerId", Value.vStr "C2"), ("Total", Value.vNum 10)],
   [("CustomerId", Value.vStr "C1"), ("Total", Value.vNum 20)]]

/-- The sample order as `get_order` shapes it with lines included. -/
def soRec1Wrapped : Rec :=
  [("HeaderId", Value.vStr "SO1"),
   ("lines", Value.vObj [("items", Value.vArr [Value.vObj [("LineId", Value.vNum 1)]])])]

/-! ## C2: the pagination invariant -/

/-- C2: for every record list and integers limit ≥ 0, offset ≥ 0, the
paginated page has exactly min(limit, max(0, len − offset)) items, the
has-more flag equals (offset + limit < len), and an out-of-range offset
yields an empty item list rather than an error. -/
theorem paginationInvariant (items : List Rec) (limit offset : Int)
    (hl : 0 ≤ limit) (ho : 0 ≤ offset) :
    (((applyPaginationBase items limit offset).1.length : Int)
        = min limit (max 0 ((items.length : Int) - offset)))
    ∧ (applyPaginationBase items limit offset).2
        = decide (offset + limit < (items.length : Int))
    ∧ ((items.length : Int) ≤ offset → (applyPaginationBase items limit offset).1 = []) := by
  have hlen : (pySlice items offset (offset + limit)).length
      = min (offset + limit).toNat items.length - min offset.toNat items.length :=
    pySlice_length_nonneg items offset (offset + limit) ho (by omega)
  refine ⟨?_, rfl, fun h => ?_⟩
  · show ((pySlice items offset (offset + limit)).length : Int) = _
    rw [hlen]
    omega
  · apply List.eq_nil_of_length_eq_zero
    show (pySlice items offset (offset + limit)).length = 0
    rw [hlen]
    omega

/-- Witness for C2 at a concrete input. -/
theorem paginationInvariant_witness :
    (((applyPaginationBase [poRecA, poRecB] 1 1).1.length : Int)
        = min 1 (max 0 (([poRecA, poRecB].length : Int) - 1)))
    ∧ (applyPaginationBase [poRecA, poRecB] 1 1).2
        = decide ((1 : Int) + 1 < ([poRecA, poRecB].length : Int))
    ∧ (([poRecA, poRecB].length : Int) ≤ 1 → (applyPaginationBase [poRecA, poRecB] 1 1).1 = []) :=
  paginationInvariant [poRecA, poRecB] 1 1 (by decide) (by decide)

/-! ## C7: negative pagination arguments -/

/-- C7 counterexample: `_apply_pagination` contains no validation and no
raise; called with the negative limit −1 it does not fail with an
invalid-argument error but returns a Python slice (and even reports
has-more). -/
theorem paginationNegative_counterexample :
    applyPaginationBase [poRecA, poRecB] (-1) 0 = ([poRecA], true) := rfl

/-- C7 amended: pagination never raises on negative limit or offset; for
all arguments it returns a contiguous piece of the input list (Python
slice semantics, where negative endpoints count from the end) together
with has_more = (offset + limit < len(items)). -/
theorem paginationNegative_amended (items : List Rec) (limit offset : Int) :
    (∃ front back, items = front ++ (applyPaginationBase items limit offset).1 ++ back)
    ∧ (applyPaginationBase items limit offset).2
        = decide (offset + limit < (items.length : Int)) :=
  ⟨pySlice_append items offset (offset + limit), rfl⟩

/-! ## C1: singleton sharing -/

/-- A successful construction records the returned loader as the
singleton instance. -/
theorem constructLoader_session (fs : String → Option Dataset) (s : Session)
    (p : Option String) (l : LoaderState) (s' : Session)
    (h : constructLoader fs s p = .ok (l, s')) : s' = some l := by
  unfold constructLoader at h
  split at h
  · injection h with h'
    cases h'
    rfl
  · split at h
    · exact Except.noConfusion h
    · injection h with h'
      cases h'
      rfl

/-- C1: within one session (no intervening reset), once a construction of
the data loader has succeeded, every further construction — with any
data-path argument — returns the same instance and leaves the session
unchanged, so any two services built over that session observe identical
list results. -/
theorem singletonSharing (fs : String → Option Dataset) (s : Session)
    (p1 p2 : Option String) (l1 : LoaderState) (s1 : Session)
    (h : constructLoader fs s p1 = .ok (l1, s1)) :
    ∃ l2 s2, constructLoader fs s1 p2 = .ok (l2, s2)
      ∧ l2 = l1 ∧ s2 = s1 ∧ l2.data = l1.data
      ∧ ∀ limit offset query orderBy,
          poList l2 limit offset query orderBy = poList l1 limit offset query orderBy := by
  have hs : s1 = some l1 := constructLoader_session fs s p1 l1 s1 h
  refine ⟨l1, s1, ?_, rfl, rfl, rfl, fun _ _ _ _ => rfl⟩
  rw [hs]
  rfl

/-- Witness for C1: two constructions over the demo session. -/
theorem singletonSharing_witness :
    ∃ l2 s2, constructLoader demoFs (some demoLoader) (some "elsewhere.json") = .ok (l2, s2)
      ∧ l2 = demoLoader ∧ s2 = some demoLoader ∧ l2.data = demoLoader.data
      ∧ ∀ limit offset query orderBy,
          poList l2 limit offset query orderBy = poList demoLoader limit offset query orderBy :=
  singletonSharing demoFs none (some "db.json") (some "elsewhere.json") demoLoader
    (some demoLoader) rfl

/-! ## C6: reset on an explicit alternate source -/

/-- C6 counterexample: constructing the data loader itself with an
explicit alternate path while a dataset is loaded performs no reset — the
construction returns the old instance still carrying source A's records,
not source B's. -/
theorem loaderAltPath_counterexample :
    constructLoader fsAB (some loaderA) (some "B") = .ok (loaderA, some loaderA)
    ∧ loaderA.purchaseOrders = [[("POHeaderId", Value.vNum 1)]]
    ∧ getEntities dsB "purchaseOrders" = [[("POHeaderId", Value.vNum 2)]]
    ∧ loaderA.purchaseOrders ≠ getEntities dsB "purchaseOrders" := by
  refine ⟨rfl, rfl, rfl, fun h => ?_⟩
  have h1 : Rec.get (loaderA.purchaseOrders.headD []) "POHeaderId"
      = Rec.get ((getEntities dsB "purchaseOrders").headD []) "POHeaderId" :=
    congrArg (fun l : List Rec => Rec.get (l.headD []) "POHeaderId") h
  have h1' : some (Value.vNum 1) = some (Value.vNum 2) := h1
  have h2 : (1 : ℚ) = 2 := by
    injection h1' with h1''
    injection h1''
  exact absurd h2 (by norm_num)

/-- C6 amended: the client facades (the procurement client and the sales
client) do reset the singleton when given an explicit alternate path:
the construction is then independent of any previously loaded session
state, and when the new source exists the resulting loader carries
exactly the new source's document (replacement, never merging).
Constructing the data loader directly performs no such reset (see the
counterexample). -/
theorem clientAltPathResets (fs : String → Option Dataset) (s : Session) (pB : String) :
    clientInit fs s (some pB) = clientInit fs none (some pB)
    ∧ ∀ dsNew, fs pB = some dsNew →
        clientInit fs s (some pB) = .ok (⟨pB, dsNew⟩, some ⟨pB, dsNew⟩) := by
  constructor
  · rfl
  · intro dsNew hfs
    show constructLoader fs none (some pB) = _
    unfold constructLoader
    simp only [Option.getD]
    rw [hfs]

/-- Witness for C6 over the two-source file system. -/
theorem clientAltPathResets_witness :
    clientInit fsAB (some loaderA) (some "B") = .ok (⟨"B", dsB⟩, some ⟨"B", dsB⟩) :=
  (clientAltPathResets fsAB (some loaderA) "B").2 dsB rfl

/-! ## C8: not-found signalling -/

/-- C8: for a key absent from the primary index, the loader's get-by-key
returns the explicit signal `none` (its body is a dict lookup and cannot
raise), while the service-level `get_by_id` on any id string parsing to
that key raises the not-found error whose message names the requested
identifier. -/
theorem notFoundHandling (st : LoaderState) (k : Int)
    (habs : ∀ r ∈ st.purchaseOrders, numKeyEq (r.get "POHeaderId") (k : ℚ) = false) :
    st.getPurchaseOrder k = none
    ∧ ∀ s, parseOrderId s = .ok k →
        poGetById st s = .error (.valueError ("Purchase order not found: " ++ s)) := by
  have hnone : st.getPurchaseOrder k = none := by
    unfold LoaderState.getPurchaseOrder indexGetNum
    have hfil : st.purchaseOrders.filter (fun r => numKeyEq (r.get "POHeaderId") (k : ℚ)) = [] := by
      rw [List.filter_eq_nil_iff]
      intro r hr
      simp [habs r hr]
    rw [hfil]
    rfl
  refine ⟨hnone, fun s hs => ?_⟩
  have step : poGetById st s
      = (match st.getPurchaseOrder k with
         | none => Except.error (PyError.valueError ("Purchase order not found: " ++ s))
         | some po => Except.ok po) := by
    unfold poGetById
    rw [hs]
  rw [step, hnone]

/-- Witness for C8 at the absent key 999999999. -/
theorem notFoundHandling_witness :
    demoLoader.getPurchaseOrder 999999999 = none
    ∧ poGetById demoLoader "999999999"
        = .error (.valueError ("Purchase order not found: " ++ "999999999")) :=
  ⟨(notFoundHandling demoLoader 999999999 (by decide)).1,
   (notFoundHandling demoLoader 999999999 (by decide)).2 "999999999" rfl⟩

/-! ## C5: the count field -/

/-- C5 counterexample: the sales client's get_orders on two orders with
limit 1 returns one item but count 2 — count is the grand total of
matching records, not the number of items in the page. -/
theorem countField_counterexample :
    (getOrders demoOrders 1 0 none).map (fun resp => (resp.count, resp.items.length))
      = .ok (2, 1) := rfl

/-- C5 amended: the purchase-order service's list sets count to the
number of items in the returned page, while the sales client's get_orders
sets count to the number of records matching the filter before
pagination. -/
theorem countFieldSemantics :
    (∀ st limit offset query orderBy resp,
        poList st limit offset query orderBy = .ok resp → resp.count = resp.items.length)
    ∧ (∀ orders limit offset query resp,
        getOrders orders limit offset query = .ok resp →
          ∃ matched, applyQueryFilterSales orders query = .ok matched
            ∧ resp.count = matched.length) := by
  constructor
  · intro st limit offset query orderBy resp h
    unfold poList at h
    split at h
    · exact Except.noConfusion h
    · injection h with h'
      rw [← h']
  · intro orders limit offset query resp h
    unfold getOrders at h
    split at h
    · exact Except.noConfusion h
    · next items heq =>
        injection h with h'
        exact ⟨items, heq, by rw [← h']; exact rfl⟩

/-- Witness for C5: both parts at concrete successful requests. -/
theorem countFieldSemantics_witness :
    (CollectionResp.mk [poRecA] 1 true 1 0).count
        = (CollectionResp.mk [poRecA] 1 true 1 0).items.length
    ∧ ∃ matched, applyQueryFilterSales demoOrders none = .ok matched
        ∧ (OrdersResp.mk [soRec1] 2 1 0 true).count = matched.length :=
  ⟨countFieldSemantics.1 demoLoader 1 0 none none (CollectionResp.mk [poRecA] 1 true 1 0) rfl,
   countFieldSemantics.2 demoOrders 1 0 none (OrdersResp.mk [soRec1] 2 1 0 true) rfl⟩

/-! ## C3: the sales-order query filter -/

/-- When no record raises on the clause, the fallible comprehension is a
plain filter. -/
theorem filterE_ok (c : String × Op × Lit) (l : List Rec)
    (h : ∀ r ∈ l, clauseCompatible r c = true) :
    filterE (fun r => evalClause r c) l = .ok (l.filter (fun r => clauseOk r c)) := by
  induction l with
  | nil => rfl
  | cons x xs ih =>
      have hx := h x (List.mem_cons_self x xs)
      unfold clauseCompatible at hx
      unfold filterE
      cases he : evalClause x c with
      | error e => rw [he] at hx; exact absurd hx (by simp)
      | ok b =>
          rw [ih (fun r hr => h r (List.mem_cons_of_mem x hr))]
          have hok : clauseOk x c = b := by unfold clauseOk; rw [he]
          rw [List.filter_cons, hok]

/-- The sequential clause loop computes the conjunctive filter when every
clause is compatible with every record. -/
theorem applyClauses_ok (cs : List String) (acc : List Rec)
    (h : ∀ r ∈ acc, ∀ c ∈ clausesOf cs, clauseCompatible r c = true) :
    applyClauses cs acc
      = .ok (acc.filter (fun r => (clausesOf cs).all (fun c => clauseOk r c))) := by
  induction cs generalizing acc with
  | nil =>
      show Except.ok acc = _
      simp [clausesOf]
  | cons c cs ih =>
      unfold applyClauses
      by_cases hc : pyStrip c = ""
      · rw [if_pos hc]
        have hm : clauseMatch (pyStrip c) = none := by rw [hc]; rfl
        have hcl : clausesOf (c :: cs) = clausesOf cs := by
          unfold clausesOf
          rw [List.filterMap_cons, hm]
          rfl
        rw [hcl]
        exact ih acc (by rw [← hcl]; exact h)
      · rw [if_neg hc]
        cases hm : clauseMatch (pyStrip c) with
        | none =>
            have hcl : clausesOf (c :: cs) = clausesOf cs := by
              unfold clausesOf
              rw [List.filterMap_cons, hm]
              rfl
            rw [hcl]
            exact ih acc (by rw [← hcl]; exact h)
        | some t =>
            obtain ⟨f, op, vstr⟩ := t
            have hcl : clausesOf (c :: cs)
                = (f, op, coerceValue vstr) :: clausesOf cs := by
              unfold clausesOf
              rw [List.filterMap_cons, hm]
              rfl
            have hmem0 : (f, op, coerceValue vstr) ∈ clausesOf (c :: cs) := by
              rw [hcl]; exact List.mem_cons_self _ _
            have hfe := filterE_ok (f, op, coerceValue vstr) acc
              (fun r hr => h r hr _ hmem0)
            show (match filterE (fun r => evalClause r (f, op, coerceValue vstr)) acc with
                  | Except.error e => Except.error e
                  | Except.ok acc' => applyClauses cs acc')
                = Except.ok (List.filter
                    (fun r => (clausesOf (c :: cs)).all (fun c => clauseOk r c)) acc)
            rw [hfe]
            show applyClauses cs
                  (List.filter (fun r => clauseOk r (f, op, coerceValue vstr)) acc)
                = Except.ok (List.filter
                    (fun r => (clausesOf (c :: cs)).all (fun c => clauseOk r c)) acc)
            have hstep := ih (acc.filter (fun r => clauseOk r (f, op, coerceValue vstr)))
              (fun r hr c' hc' =>
                h r (List.mem_of_mem_filter hr) c' (by rw [hcl]; exact List.mem_cons_of_mem _ hc'))
            rw [hstep, List.filter_filter, hcl]
            refine congrArg Except.ok (List.filter_congr ?_)
            intro r hr
            rw [List.all_cons]
            exact Bool.and_comm _ _

/-- C3 counterexample: a comparison clause whose literal is numeric,
applied to a record whose field value is a string, raises `TypeError`
instead of filtering — the filter does not return a record list for every
record list and expression. -/
theorem salesFilter_counterexample :
    applyQueryFilterSales [[("A", Value.vStr "x")]] (some "A>=1") = .error .typeError := rfl

/-- C3 amended: the filter splits the expression on semicolons, ignores
empty sub-clauses, silently drops sub-clauses matching no operator
pattern, recognises the operators trying >= and <= before bare =, and —
provided every parsed comparison clause is type-compatible with every
record (its literal and the record's field value both numeric or both
strings; a missing or null field merely fails the clause) — returns
exactly the records satisfying every remaining clause conjunctively, in
their original relative order.  Without that proviso a comparison against
an incomparable stored value raises `TypeError` (see the
counterexample). -/
theorem salesFilterConjunctive (items : List Rec) (q : String)
    (hcompat : ∀ r ∈ items, ∀ c ∈ parsedClauses q, clauseCompatible r c = true) :
    applyQueryFilterSales items (some q)
      = .ok (items.filter (fun r => (parsedClauses q).all (fun c => clauseOk r c))) := by
  show (if q = "" then Except.ok items else applyClauses (pySplit q ';') items) = _
  by_cases hq : q = ""
  · rw [if_pos hq, hq]
    have hemp : parsedClauses "" = [] := rfl
    rw [hemp]
    simp
  · rw [if_neg hq]
    exact applyClauses_ok (pySplit q ';') items hcompat

/-- Witness for C3: an expression with an equality clause, a comparison
clause, an empty sub-clause and a malformed sub-clause over concrete
records. -/
theorem salesFilterConjunctive_witness :
    applyQueryFilterSales filterDemo (some "CustomerId=C1;Total>=10;;bogus")
      = .ok (filterDemo.filter
          (fun r => (parsedClauses "CustomerId=C1;Total>=10;;bogus").all
            (fun c => clauseOk r c))) :=
  salesFilterConjunctive filterDemo "CustomerId=C1;Total>=10;;bogus" (by decide)

/-! ## C4: the wildcard LIKE filter -/

/-- takeWhile runs through a satisfying block. -/
theorem takeWhile_append_all {p : Char → Bool} :
    ∀ (l r : List Char), (∀ x ∈ l, p x = true) →
      (l ++ r).takeWhile p = l ++ r.takeWhile p := by
  intro l
  induction l with
  | nil => intro r _; rfl
  | cons a as ih =>
      intro r hl
      have ha : p a = true := hl a (List.mem_cons_self a as)
      simp only [List.cons_append, List.takeWhile_cons, ha, if_true]
      exact congrArg (a :: ·) (ih r (fun x hx => hl x (List.mem_cons_of_mem a hx)))

/-- dropWhile runs through a satisfying block. -/
theorem dropWhile_append_all {p : Char → Bool} :
    ∀ (l r : List Char), (∀ x ∈ l, p x = true) →
      (l ++ r).dropWhile p = r.dropWhile p := by
  intro l
  induction l with
  | nil => intro r _; rfl
  | cons a as ih =>
      intro r hl
      have ha : p a = true := hl a (List.mem_cons_self a as)
      simp only [List.cons_append, List.dropWhile_cons, ha, if_true]
      exact ih r (fun x hx => hl x (List.mem_cons_of_mem a hx))

/-- The character list of a constructed LIKE query. -/
theorem likeQuery_toList (f pat : String) :
    (f ++ " like '" ++ pat ++ "'").toList
      = f.toList ++ (' ' :: 'l' :: 'i' :: 'k' :: 'e' :: ' ' :: '\'' ::
          (pat.toList ++ ['\''])) := by
  show (f ++ " like '" ++ pat ++ "'").data = _
  rw [String.data_append, String.data_append, String.data_append]
  simp only [List.append_assoc]
  rfl

/-- On a constructed LIKE query the equality regex fails: the maximal
word run is followed by a space, never by an equals sign. -/
theorem eqMatchBase_likeQuery (f pat : String)
    (hf1 : f.toList ≠ []) (hf2 : ∀ c ∈ f.toList, isWordChar c = true) :
    eqMatchBase (f ++ " like '" ++ pat ++ "'") = none := by
  unfold eqMatchBase
  rw [likeQuery_toList, takeWhile_append_all _ _ hf2, dropWhile_append_all _ _ hf2]
  have h1 : (' ' :: 'l' :: 'i' :: 'k' :: 'e' :: ' ' :: '\'' ::
      (pat.toList ++ ['\''])).takeWhile isWordChar = [] := rfl
  rw [h1, List.append_nil]
  have hne : f.toList.isEmpty = false := by
    cases hfl : f.toList with
    | nil => exact absurd hfl hf1
    | cons a as => rfl
  rw [hne]
  rfl

/-- On a constructed LIKE query the wildcard regex succeeds and extracts
the field and the pattern. -/
theorem likeMatchBase_likeQuery (f pat : String)
    (hf1 : f.toList ≠ []) (hf2 : ∀ c ∈ f.toList, isWordChar c = true)
    (hp1 : pat.toList ≠ []) (hpq : ∀ c ∈ pat.toList, (decide (c ≠ '\'')) = true) :
    likeMatchBase (f ++ " like '" ++ pat ++ "'") = some (f, pat) := by
  unfold likeMatchBase
  rw [likeQuery_toList, takeWhile_append_all _ _ hf2, dropWhile_append_all _ _ hf2]
  have h1 : (' ' :: 'l' :: 'i' :: 'k' :: 'e' :: ' ' :: '\'' ::
      (pat.toList ++ ['\''])).takeWhile isWordChar = [] := rfl
  rw [h1, List.append_nil]
  have hne : f.toList.isEmpty = false := by
    cases hfl : f.toList with
    | nil => exact absurd hfl hf1
    | cons a as => rfl
  rw [hne]
  show likeTail f.toList (pat.toList ++ ['\'']) = some (f, pat)
  unfold likeTail
  rw [takeWhile_append_all _ _ hpq, dropWhile_append_all _ _ hpq]
  have h2 : (['\''] : List Char).takeWhile (fun ch => decide (ch ≠ '\'')) = [] := rfl
  rw [h2, List.append_nil]
  have hpne : pat.toList.isEmpty = false := by
    cases hfl : pat.toList with
    | nil => exact absurd hfl hp1
    | cons a as => rfl
  rw [hpne]
  rfl

/-- Newline-bounded suffix search respects pointwise equal
continuations. -/
theorem dotSuffix_congr (f g : List Char → Bool) (h : ∀ t, f t = g t) :
    ∀ s, dotSuffix f s = dotSuffix g s := by
  intro s
  induction s with
  | nil => exact h []
  | cons x xs ih =>
      show (f (x :: xs) || ((decide (¬ x = '\n')) && dotSuffix f xs))
          = (g (x :: xs) || ((decide (¬ x = '\n')) && dotSuffix g xs))
      rw [h (x :: xs), ih]

/-- On newline-free input the newline-bounded suffix search is the plain
suffix search, for continuations that agree on newline-free input. -/
theorem dotSuffix_eq_anySuffix (f g : List Char → Bool) :
    ∀ s, (∀ c ∈ s, ¬ c = '\n') → (∀ t, (∀ c ∈ t, ¬ c = '\n') → f t = g t) →
      dotSuffix f s = anySuffix g s := by
  intro s
  induction s with
  | nil =>
      intro _ hfg
      exact hfg [] (by intro c hc; cases hc)
  | cons x xs ih =>
      intro hnl hfg
      show (f (x :: xs) || ((decide (¬ x = '\n')) && dotSuffix f xs))
          = (g (x :: xs) || anySuffix g xs)
      rw [hfg (x :: xs) hnl, ih (fun c hc => hnl c (List.mem_cons_of_mem x hc)) hfg,
        decide_eq_true (hnl x (List.mem_cons_self x xs))]
      rfl

/-- The code's translated-regex matcher coincides with the amended-claim
wildcard matcher on every value. -/
theorem matchToks_eq_specNl : ∀ (p s : List Char),
    matchToks (p.map tokOf) s = likeSpecGoNl p s := by
  intro p
  induction p with
  | nil => intro s; rfl
  | cons c ps ihp =>
      intro s
      by_cases hw : (c = '*' || c = '%') = true
      · have ht : tokOf c = Tok.anyStar := by unfold tokOf; rw [hw]; rfl
        rw [List.map_cons, ht]
        show dotSuffix (matchToks (ps.map tokOf)) s = likeSpecGoNl (c :: ps) s
        have hg : likeSpecGoNl (c :: ps) s = dotSuffix (likeSpecGoNl ps) s := by
          show (if (c = '*' || c = '%') = true then dotSuffix (likeSpecGoNl ps) s
                else match s with
                     | [] => false
                     | x :: xs => (decide (c.toLower = x.toLower)) && likeSpecGoNl ps xs) = _
          rw [hw]
          rfl
        rw [hg]
        exact dotSuffix_congr _ _ ihp s
      · have hw' : (c = '*' || c = '%') = false := by
          cases hcc : (c = '*' || c = '%') with
          | true => exact absurd hcc hw
          | false => rfl
        have ht : tokOf c = Tok.lit c := by unfold tokOf; rw [hw']; rfl
        rw [List.map_cons, ht]
        have hg : likeSpecGoNl (c :: ps) s
            = (match s with
               | [] => false
               | x :: xs => (decide (c.toLower = x.toLower)) && likeSpecGoNl ps xs) := by
          show (if (c = '*' || c = '%') = true then dotSuffix (likeSpecGoNl ps) s
                else match s with
                     | [] => false
                     | x :: xs => (decide (c.toLower = x.toLower)) && likeSpecGoNl ps xs) = _
          rw [hw']
          rfl
        rw [hg]
        cases s with
        | nil => rfl
        | cons x xs =>
            show ((decide (c.toLower = x.toLower)) && matchToks (ps.map tokOf) xs) = _
            rw [ihp xs]

/-- Unfolding the claim-side matcher on a wildcard head. -/
theorem likeSpecGo_wild (c : Char) (ps s : List Char) (hw : (c = '*' || c = '%') = true) :
    likeSpecGo (c :: ps) s = anySuffix (likeSpecGo ps) s := by
  show (if (c = '*' || c = '%') = true then anySuffix (likeSpecGo ps) s
        else match s with
             | [] => false
             | x :: xs => (decide (c.toLower = x.toLower)) && likeSpecGo ps xs) = _
  rw [hw]
  rfl

/-- Unfolding the claim-side matcher on a literal head. -/
theorem likeSpecGo_lit (c : Char) (ps s : List Char) (hw : (c = '*' || c = '%') = false) :
    likeSpecGo (c :: ps) s
      = (match s with
         | [] => false
         | x :: xs => (decide (c.toLower = x.toLower)) && likeSpecGo ps xs) := by
  show (if (c = '*' || c = '%') = true then anySuffix (likeSpecGo ps) s
        else match s with
             | [] => false
             | x :: xs => (decide (c.toLower = x.toLower)) && likeSpecGo ps xs) = _
  rw [hw]
  rfl

/-- On newline-free values the code's matcher coincides with the
original claim's wildcard matcher. -/
theorem matchToks_eq_spec : ∀ (p s : List Char), (∀ c ∈ s, ¬ c = '\n') →
    matchToks (p.map tokOf) s = likeSpecGo p s := by
  intro p
  induction p with
  | nil => intro s _; rfl
  | cons c ps ihp =>
      intro s hnl
      by_cases hw : (c = '*' || c = '%') = true
      · have ht : tokOf c = Tok.anyStar := by unfold tokOf; rw [hw]; rfl
        rw [List.map_cons, ht, likeSpecGo_wild c ps s hw]
        show dotSuffix (matchToks (ps.map tokOf)) s = anySuffix (likeSpecGo ps) s
        exact dotSuffix_eq_anySuffix _ _ s hnl (fun t hnt => ihp t hnt)
      · have hw' : (c = '*' || c = '%') = false := by
          cases hcc : (c = '*' || c = '%') with
          | true => exact absurd hcc hw
          | false => rfl
        have ht : tokOf c = Tok.lit c := by unfold tokOf; rw [hw']; rfl
        rw [List.map_cons, ht, likeSpecGo_lit c ps s hw']
        cases s with
        | nil => rfl
        | cons x xs =>
            show ((decide (c.toLower = x.toLower)) && matchToks (ps.map tokOf) xs) = _
            rw [ihp xs (fun c hc => hnl c (List.mem_cons_of_mem x hc))]

/-- C4 counterexample: the pattern is compiled without `re.DOTALL`, so
the translated `.*` never crosses a newline — on the value "AB\nC" the
query keeps nothing, while under the claim's reading (`*` matching zero
or more characters) the record matches and would be kept. -/
theorem likeFilter_counterexample :
    applyQueryFilterBase [[("Name", Value.vStr "AB\nC")]] (some "Name like 'AB*C'") = []
    ∧ ([[("Name", Value.vStr "AB\nC")]] : List Rec).filter (fun r =>
        match Rec.get r "Name" with
        | some (Value.vStr s) => (decide (s ≠ "")) && likeSpecMatch "AB*C" s
        | _ => false) = [[("Name", Value.vStr "AB\nC")]] :=
  ⟨rfl, rfl⟩

/-- C4 amended: on a LIKE query built from a word-character field name
and a non-empty pattern of plain text characters and wildcards, over
records whose queried field (when present) holds a string, the base
filter keeps exactly the records whose field value is present and
non-empty and whose value matches the pattern case-insensitively, with
`*` and `%` matching zero or more characters other than newline (the
pattern is compiled without `re.DOTALL`) and the match anchored at the
start only (prefix style); on values containing no newline this is
exactly the original claim's any-characters reading.  The
plain-character restriction marks the modelled regex fragment: other
characters would reach `re.compile` as metacharacters. -/
theorem likeFilterMatches (items : List Rec) (f pat : String)
    (hf1 : f.toList ≠ []) (hf2 : ∀ c ∈ f.toList, isWordChar c = true)
    (hp1 : pat.toList ≠ []) (hp2 : ∀ c ∈ pat.toList, plainPatChar c = true)
    (hv : ∀ r ∈ items, strFieldOk r f = true) :
    (applyQueryFilterBase items (some (f ++ " like '" ++ pat ++ "'"))
      = items.filter (fun r =>
          match r.get f with
          | some (Value.vStr s) => (decide (s ≠ "")) && likeSpecNlMatch pat s
          | _ => false))
    ∧ (∀ s : String, (∀ c ∈ s.toList, ¬ c = '\n') →
        likeSpecNlMatch pat s = likeSpecMatch pat s) := by
  refine ⟨?_, fun s hnl =>
    (matchToks_eq_specNl pat.toList s.toList).symm.trans
      (matchToks_eq_spec pat.toList s.toList hnl)⟩
  have hpq : ∀ c ∈ pat.toList, (decide (c ≠ '\'')) = true := by
    intro c hc
    have h := hp2 c hc
    by_contra hne
    have hcq : c = '\'' := not_not.mp (by simpa using hne)
    rw [hcq] at h
    exact absurd h (by decide)
  have hqne : ¬ (f ++ " like '" ++ pat ++ "'") = "" := by
    intro hq
    have hnil : (f ++ " like '" ++ pat ++ "'").toList = [] := by rw [hq]; rfl
    rw [likeQuery_toList] at hnil
    rcases List.append_eq_nil.mp hnil with ⟨-, h2⟩
    exact List.noConfusion h2
  show (if (f ++ " like '" ++ pat ++ "'") = "" then items
        else
          match eqMatchBase (f ++ " like '" ++ pat ++ "'") with
          | some fv =>
              items.filter (fun r =>
                match r.get fv.1 with
                | some v => valueEqLit v (coerceEqBase fv.2)
                | none => false)
          | none =>
              match likeMatchBase (f ++ " like '" ++ pat ++ "'") with
              | some fp =>
                  items.filter (fun r =>
                    truthyOpt (r.get fp.1) &&
                      likeRegexMatch fp.2 (Value.pyStr ((r.get fp.1).getD Value.vNull)))
              | none => items) = _
  rw [if_neg hqne, eqMatchBase_likeQuery f pat hf1 hf2,
    likeMatchBase_likeQuery f pat hf1 hf2 hp1 hpq]
  show items.filter (fun r =>
        truthyOpt (r.get f) && likeRegexMatch pat (Value.pyStr ((r.get f).getD Value.vNull))) = _
  refine List.filter_congr ?_
  intro r hr
  have hfld := hv r hr
  unfold strFieldOk at hfld
  cases hg : r.get f with
  | none => rfl
  | some v =>
      rw [hg] at hfld
      cases v with
      | vStr s =>
          show ((decide (s ≠ "")) && likeRegexMatch pat s)
              = ((decide (s ≠ "")) && likeSpecNlMatch pat s)
          have hm : likeRegexMatch pat s = likeSpecNlMatch pat s :=
            matchToks_eq_specNl pat.toList s.toList
          rw [hm]
      | vNull => exact Bool.noConfusion hfld
      | vBool b => exact Bool.noConfusion hfld
      | vNum q => exact Bool.noConfusion hfld
      | vArr l => exact Bool.noConfusion hfld
      | vObj l => exact Bool.noConfusion hfld

/-- Witness for C4: the claim's own scenario — the pattern ABC* keeps
exactly the suppliers whose name starts with ABC, and on that
newline-free name the amended and original matchers agree. -/
theorem likeFilterMatches_witness :
    (applyQueryFilterBase [poRecA, poRecB] (some ("Supplier" ++ " like '" ++ "ABC*" ++ "'"))
        = [poRecA, poRecB].filter (fun r =>
            match r.get "Supplier" with
            | some (Value.vStr s) => (decide (s ≠ "")) && likeSpecNlMatch "ABC*" s
            | _ => false))
    ∧ likeSpecNlMatch "ABC*" "ABC Office Supplies Inc"
        = likeSpecMatch "ABC*" "ABC Office Supplies Inc"
    ∧ applyQueryFilterBase [poRecA, poRecB] (some "Supplier like 'ABC*'") = [poRecA] :=
  ⟨(likeFilterMatches [poRecA, poRecB] "Supplier" "ABC*"
      (by decide) (by decide) (by decide) (by decide) (by decide)).1,
   (likeFilterMatches [poRecA, poRecB] "Supplier" "ABC*"
      (by decide) (by decide) (by decide) (by decide) (by decide)).2
      "ABC Office Supplies Inc" (by decide),
   rfl⟩

/-! ## C9: sorting -/

/-- Ordered insertion only consults the relation between the inserted
element and the list elements. -/
theorem orderedInsert_congr (r r' : Rec → Rec → Prop)
    [DecidableRel r] [DecidableRel r'] (x : Rec) :
    ∀ l : List Rec, (∀ b ∈ l, (r x b ↔ r' x b)) →
      l.orderedInsert r x = l.orderedInsert r' x := by
  intro l
  induction l with
  | nil => intro _; rfl
  | cons b bs ih =>
      intro h
      show (if r x b then x :: b :: bs else b :: bs.orderedInsert r x)
          = (if r' x b then x :: b :: bs else b :: bs.orderedInsert r' x)
      by_cases hr : r x b
      · rw [if_pos hr, if_pos ((h b (List.mem_cons_self b bs)).mp hr)]
      · rw [if_neg hr, if_neg (fun hr' => hr ((h b (List.mem_cons_self b bs)).mpr hr')),
          ih (fun c hc => h c (List.mem_cons_of_mem b hc))]

/-- Insertion sort only consults the relation between list elements. -/
theorem insertionSort_congr (r r' : Rec → Rec → Prop)
    [DecidableRel r] [DecidableRel r'] :
    ∀ l : List Rec, (∀ a ∈ l, ∀ b ∈ l, (r a b ↔ r' a b)) →
      l.insertionSort r = l.insertionSort r' := by
  intro l
  induction l with
  | nil => intro _; rfl
  | cons x xs ih =>
      intro h
      show (xs.insertionSort r).orderedInsert r x = (xs.insertionSort r').orderedInsert r' x
      rw [ih (fun a ha b hb =>
        h a (List.mem_cons_of_mem x ha) b (List.mem_cons_of_mem x hb))]
      exact orderedInsert_congr r r' x (xs.insertionSort r')
        (fun b hb => h x (List.mem_cons_self x xs) b
          (List.mem_cons_of_mem x ((List.mem_insertionSort r').mp hb)))

/-- Inserting never moves an element past one with an equal key, so the
filter at any key value is preserved up to consing the new element. -/
theorem filter_orderedInsert (r : Rec → Rec → Prop) [DecidableRel r]
    {κ : Type} [DecidableEq κ] (key : Rec → κ)
    (hk : ∀ a b, key a = key b → r a b) (x : Rec) (v : κ) :
    ∀ l : List Rec,
      (key x = v → (l.orderedInsert r x).filter (fun a => key a = v)
          = x :: l.filter (fun a => key a = v))
      ∧ (key x ≠ v → (l.orderedInsert r x).filter (fun a => key a = v)
          = l.filter (fun a => key a = v)) := by
  intro l
  induction l with
  | nil =>
      constructor
      · intro hx
        show [x].filter (fun a => decide (key a = v)) = [x]
        simp [hx]
      · intro hx
        show [x].filter (fun a => decide (key a = v)) = []
        simp [hx]
  | cons b bs ih =>
      by_cases hr : r x b
      · have hins : (b :: bs).orderedInsert r x = x :: b :: bs := by
          show (if r x b then x :: b :: bs else b :: bs.orderedInsert r x) = _
          rw [if_pos hr]
        constructor
        · intro hx
          rw [hins, List.filter_cons, List.filter_cons]
          simp [hx]
        · intro hx
          rw [hins, List.filter_cons, List.filter_cons]
          simp [hx]
      · have hkb : key x ≠ key b := fun he => hr (hk x b he)
        have hins : (b :: bs).orderedInsert r x = b :: bs.orderedInsert r x := by
          show (if r x b then x :: b :: bs else b :: bs.orderedInsert r x) = _
          rw [if_neg hr]
        constructor
        · intro hx
          have hbv : ¬ key b = v := fun hbv => hkb (hx.trans hbv.symm)
          rw [hins, List.filter_cons, List.filter_cons]
          simp [hbv, (ih).1 hx]
        · intro hx
          rw [hins, List.filter_cons, List.filter_cons, (ih).2 hx]

/-- Stability of insertion sort: the sublist at any key value is
untouched. -/
theorem filter_insertionSort (r : Rec → Rec → Prop) [DecidableRel r]
    {κ : Type} [DecidableEq κ] (key : Rec → κ)
    (hk : ∀ a b, key a = key b → r a b) :
    ∀ (l : List Rec) (v : κ),
      (l.insertionSort r).filter (fun a => key a = v) = l.filter (fun a => key a = v) := by
  intro l
  induction l with
  | nil => intro v; rfl
  | cons x xs ih =>
      intro v
      show ((xs.insertionSort r).orderedInsert r x).filter (fun a => key a = v) = _
      by_cases hx : key x = v
      · rw [(filter_orderedInsert r key hk x v (xs.insertionSort r)).1 hx, ih v,
          List.filter_cons]
        simp [hx]
      · rw [(filter_orderedInsert r key hk x v (xs.insertionSort r)).2 hx, ih v,
          List.filter_cons]
        simp [hx]

/-- The empty string is the least string. -/
theorem emptyStr_le (s : String) : ("" : String) ≤ s := by
  rw [String.le_iff_toList_le]
  exact List.nil_le

/-- On string-keyed records the code's comparison is the key order. -/
theorem recLe_iff_keyRel_str (field : String) (desc : Bool) (a b : Rec)
    (ha : (sortKey (a.get field)).isStr = true)
    (hb : (sortKey (b.get field)).isStr = true) :
    (recLe field desc a b ↔ keyRel (strKeyOf field) desc a b) := by
  cases hsa : sortKey (a.get field) with
  | ks s =>
      cases hsb : sortKey (b.get field) with
      | ks t =>
          cases desc with
          | false => simp [recLe, skLe, skLeRaw, keyRel, strKeyOf, hsa, hsb]
          | true => simp [recLe, skLe, skLeRaw, keyRel, strKeyOf, hsa, hsb]
      | kn q => rw [hsb] at hb; exact Bool.noConfusion hb
      | kOther => rw [hsb] at hb; exact Bool.noConfusion hb
  | kn q => rw [hsa] at ha; exact Bool.noConfusion ha
  | kOther => rw [hsa] at ha; exact Bool.noConfusion ha

/-- On number-keyed records the code's comparison is the key order. -/
theorem recLe_iff_keyRel_num (field : String) (desc : Bool) (a b : Rec)
    (ha : (sortKey (a.get field)).isNum = true)
    (hb : (sortKey (b.get field)).isNum = true) :
    (recLe field desc a b ↔ keyRel (numKeyOf field) desc a b) := by
  cases hsa : sortKey (a.get field) with
  | kn p =>
      cases hsb : sortKey (b.get field) with
      | kn q =>
          cases desc with
          | false => simp [recLe, skLe, skLeRaw, keyRel, numKeyOf, hsa, hsb]
          | true => simp [recLe, skLe, skLeRaw, keyRel, numKeyOf, hsa, hsb]
      | ks t => rw [hsb] at hb; exact Bool.noConfusion hb
      | kOther => rw [hsb] at hb; exact Bool.noConfusion hb
  | ks s => rw [hsa] at ha; exact Bool.noConfusion ha
  | kOther => rw [hsa] at ha; exact Bool.noConfusion ha

/-- Equal sort keys always compare favourably under the string key
order. -/
theorem sortKeyEq_keyRel_str (field : String) (desc : Bool) :
    ∀ a b : Rec, sortKey (a.get field) = sortKey (b.get field) →
      keyRel (strKeyOf field) desc a b := by
  intro a b h
  unfold keyRel strKeyOf
  rw [h]
  cases desc <;> simp

/-- Equal sort keys always compare favourably under the numeric key
order. -/
theorem sortKeyEq_keyRel_num (field : String) (desc : Bool) :
    ∀ a b : Rec, sortKey (a.get field) = sortKey (b.get field) →
      keyRel (numKeyOf field) desc a b := by
  intro a b h
  unfold keyRel numKeyOf
  rw [h]
  cases desc <;> simp

/-- An unmixed key list is all strings or all numbers. -/
theorem mixedKeys_false_cases (items : List Rec) (field : String)
    (h : mixedKeys items field = false) :
    (∀ r ∈ items, (sortKey (r.get field)).isStr = true)
    ∨ (∀ r ∈ items, (sortKey (r.get field)).isNum = true) := by
  unfold mixedKeys at h
  rw [Bool.or_eq_false_iff, Bool.and_eq_false_iff] at h
  obtain ⟨h12, h30⟩ := h
  have h3 := List.any_eq_false.mp h30
  cases h12 with
  | inl hs0 =>
      have hs := List.any_eq_false.mp hs0
      right
      intro r hr
      have hsr := hs _ (List.mem_map_of_mem (fun r => sortKey (r.get field)) hr)
      have h3r := h3 _ (List.mem_map_of_mem (fun r => sortKey (r.get field)) hr)
      cases hsk : sortKey (r.get field) with
      | ks s => rw [hsk] at hsr; exact absurd rfl hsr
      | kn q => rfl
      | kOther => rw [hsk] at h3r; exact absurd rfl h3r
  | inr hn0 =>
      have hn := List.any_eq_false.mp hn0
      left
      intro r hr
      have hnr := hn _ (List.mem_map_of_mem (fun r => sortKey (r.get field)) hr)
      have h3r := h3 _ (List.mem_map_of_mem (fun r => sortKey (r.get field)) hr)
      cases hsk : sortKey (r.get field) with
      | ks s => rfl
      | kn q => rw [hsk] at hnr; exact absurd rfl hnr
      | kOther => rw [hsk] at h3r; exact absurd rfl h3r

/-- C9 counterexample: sorting is not total — by the field "A" over one
record carrying the number 1 and one record missing the field, the keys
are the number 1 and the empty string, and Python's `sorted` raises
`TypeError` comparing them. -/
theorem orderBy_counterexample :
    applyOrderBy [[("A", Value.vNum 1)], []] (some "A") = .error .typeError := rfl

/-- C9 amended: the sort is a stable sort in which a missing, null or
otherwise falsy field value is keyed as the empty string (the least
string), and it succeeds whenever the resulting keys do not mix strings
with numbers; on a mixed key list it raises `TypeError` instead of
sorting (see the counterexample), so it is not total. -/
theorem orderBySort (items : List Rec) (ob : String)
    (hob : ¬ ob = "")
    (hmix : mixedKeys items (parseOrderBy ob).1 = false) :
    ∃ l, applyOrderBy items (some ob) = .ok l
      ∧ l.Perm items
      ∧ List.Sorted (recLe (parseOrderBy ob).1 (parseOrderBy ob).2) l
      ∧ (∀ v, l.filter (fun r => sortKey (r.get (parseOrderBy ob).1) = v)
            = items.filter (fun r => sortKey (r.get (parseOrderBy ob).1) = v))
      ∧ sortKey none = SKey.ks ""
      ∧ sortKey (some Value.vNull) = SKey.ks ""
      ∧ (∀ s : String, skLeRaw (SKey.ks "") (SKey.ks s) = true) := by
  have happ : applyOrderBy items (some ob)
      = .ok (items.insertionSort (recLe (parseOrderBy ob).1 (parseOrderBy ob).2)) := by
    show (if ob = "" then Except.ok items
          else if mixedKeys items (parseOrderBy ob).1 then Except.error PyError.typeError
          else Except.ok (items.insertionSort
            (recLe (parseOrderBy ob).1 (parseOrderBy ob).2))) = _
    rw [if_neg hob, hmix]
    rfl
  refine ⟨_, happ, List.perm_insertionSort _ _, ?_, ?_, rfl, rfl, fun s => ?_⟩
  · cases mixedKeys_false_cases items (parseOrderBy ob).1 hmix with
    | inl hstr =>
        have hagree : ∀ a ∈ items, ∀ b ∈ items,
            (recLe (parseOrderBy ob).1 (parseOrderBy ob).2 a b
              ↔ keyRel (strKeyOf (parseOrderBy ob).1) (parseOrderBy ob).2 a b) :=
          fun a ha b hb => recLe_iff_keyRel_str _ _ a b (hstr a ha) (hstr b hb)
        rw [insertionSort_congr _ _ items hagree]
        haveI : IsTotal Rec (keyRel (strKeyOf (parseOrderBy ob).1) (parseOrderBy ob).2) := ⟨by
          intro a b
          unfold keyRel
          cases (parseOrderBy ob).2 <;> simp <;> exact le_total _ _⟩
        haveI : IsTrans Rec (keyRel (strKeyOf (parseOrderBy ob).1) (parseOrderBy ob).2) := ⟨by
          intro a b c hab hbc
          unfold keyRel at *
          cases hdesc : (parseOrderBy ob).2 with
          | false =>
              rw [hdesc] at hab hbc
              simp at hab hbc ⊢
              exact le_trans hab hbc
          | true =>
              rw [hdesc] at hab hbc
              simp at hab hbc ⊢
              exact le_trans hbc hab⟩
        exact (List.sorted_insertionSort _ items).imp_of_mem (fun ha hb hr =>
          (hagree _ ((List.mem_insertionSort _).mp ha)
            _ ((List.mem_insertionSort _).mp hb)).mpr hr)
    | inr hnum =>
        have hagree : ∀ a ∈ items, ∀ b ∈ items,
            (recLe (parseOrderBy ob).1 (parseOrderBy ob).2 a b
              ↔ keyRel (numKeyOf (parseOrderBy ob).1) (parseOrderBy ob).2 a b) :=
          fun a ha b hb => recLe_iff_keyRel_num _ _ a b (hnum a ha) (hnum b hb)
        rw [insertionSort_congr _ _ items hagree]
        haveI : IsTotal Rec (keyRel (numKeyOf (parseOrderBy ob).1) (parseOrderBy ob).2) := ⟨by
          intro a b
          unfold keyRel
          cases (parseOrderBy ob).2 <;> simp <;> exact le_total _ _⟩
        haveI : IsTrans Rec (keyRel (numKeyOf (parseOrderBy ob).1) (parseOrderBy ob).2) := ⟨by
          intro a b c hab hbc
          unfold keyRel at *
          cases hdesc : (parseOrderBy ob).2 with
          | false =>
              rw [hdesc] at hab hbc
              simp at hab hbc ⊢
              exact le_trans hab hbc
          | true =>
              rw [hdesc] at hab hbc
              simp at hab hbc ⊢
              exact le_trans hbc hab⟩
        exact (List.sorted_insertionSort _ items).imp_of_mem (fun ha hb hr =>
          (hagree _ ((List.mem_insertionSort _).mp ha)
            _ ((List.mem_insertionSort _).mp hb)).mpr hr)
  · intro v
    cases mixedKeys_false_cases items (parseOrderBy ob).1 hmix with
    | inl hstr =>
        have hagree : ∀ a ∈ items, ∀ b ∈ items,
            (recLe (parseOrderBy ob).1 (parseOrderBy ob).2 a b
              ↔ keyRel (strKeyOf (parseOrderBy ob).1) (parseOrderBy ob).2 a b) :=
          fun a ha b hb => recLe_iff_keyRel_str _ _ a b (hstr a ha) (hstr b hb)
        rw [insertionSort_congr _ _ items hagree]
        exact filter_insertionSort _ (fun r => sortKey (r.get (parseOrderBy ob).1))
          (sortKeyEq_keyRel_str _ _) items v
    | inr hnum =>
        have hagree : ∀ a ∈ items, ∀ b ∈ items,
            (recLe (parseOrderBy ob).1 (parseOrderBy ob).2 a b
              ↔ keyRel (numKeyOf (parseOrderBy ob).1) (parseOrderBy ob).2 a b) :=
          fun a ha b hb => recLe_iff_keyRel_num _ _ a b (hnum a ha) (hnum b hb)
        rw [insertionSort_congr _ _ items hagree]
        exact filter_insertionSort _ (fun r => sortKey (r.get (parseOrderBy ob).1))
          (sortKeyEq_keyRel_num _ _) items v
  · exact decide_eq_true (emptyStr_le s)

/-- Witness for C9: a descending sort by a numeric field over the sample
records. -/
theorem orderBySort_witness :
    ∃ l, applyOrderBy filterDemo (some "Total:desc") = .ok l
      ∧ l.Perm filterDemo
      ∧ List.Sorted (recLe (parseOrderBy "Total:desc").1 (parseOrderBy "Total:desc").2) l
      ∧ (∀ v, l.filter (fun r => sortKey (r.get (parseOrderBy "Total:desc").1) = v)
            = filterDemo.filter (fun r => sortKey (r.get (parseOrderBy "Total:desc").1) = v))
      ∧ sortKey none = SKey.ks ""
      ∧ sortKey (some Value.vNull) = SKey.ks ""
      ∧ (∀ s : String, skLeRaw (SKey.ks "") (SKey.ks s) = true) :=
  orderBySort filterDemo "Total:desc" (by decide) (by decide)

/-! ## C10: simulated writes -/

/-- C10 counterexample: on an order that has lines, `patch` in the
standard calling convention does not return the same record `get_order`
returns — `get_by_id` runs with `expand=None`, so the lines key is
dropped, while `get_order` returns the order with its lines wrapped. -/
theorem updateNoop_counterexample :
    (patchOp demoSales "salesOrdersForOrderHub" "SO1" []).map Prod.fst
      ≠ getOrder demoSales "SO1" true := by
  intro h
  have h1 : ((patchOp demoSales "salesOrdersForOrderHub" "SO1" []).map Prod.fst).map
        (fun r => r.hasField "lines")
      = (getOrder demoSales "SO1" true).map (fun r => r.hasField "lines") :=
    congrArg (fun e => Except.map (fun r => Rec.hasField r "lines") e) h
  have h2 : (Except.ok false : Except PyError Bool) = .ok true := h1
  injection h2 with h3
  exact Bool.noConfusion h3

/-- C10 amended: the simulated writes are pure reads of the loader state:
`update_order` ignores its payload, leaves the state unchanged and
returns exactly what `get_order` returns; `patch` leaves the state
unchanged as well, but in the standard calling convention returns the
stored order via `get_order` with `include_lines=False` (the lines key
removed), not `get_order`'s default shape. -/
theorem updateNoop (st : LoaderState) (orderId : String) (updates : Rec)
    (resource resourceId : String) (data : Rec) :
    (∀ rec st', updateOrder st orderId updates = .ok (rec, st') →
        st' = st ∧ getOrder st orderId true = .ok rec)
    ∧ (∀ rec st', patchOp st resource resourceId data = .ok (rec, st') → st' = st)
    ∧ patchOp st "salesOrdersForOrderHub" resourceId data
        = (getOrder st resourceId false).map (fun r => (r, st)) := by
  refine ⟨?_, ?_, rfl⟩
  · intro rec st' h
    unfold updateOrder at h
    cases hg : getOrder st orderId true with
    | error e => rw [hg] at h; exact Except.noConfusion h
    | ok r =>
        rw [hg] at h
        injection h with h'
        injection h' with h1 h2
        exact ⟨h2.symm, by rw [h1]⟩
  · intro rec st' h
    unfold patchOp at h
    cases hg : patchRead st resource resourceId with
    | error e => rw [hg] at h; exact Except.noConfusion h
    | ok r =>
        rw [hg] at h
        injection h with h'
        injection h' with h1 h2
        exact h2.symm

/-- Witness for C10 at a concrete order with lines. -/
theorem updateNoop_witness :
    (demoSales = demoSales ∧ getOrder demoSales "SO1" true = .ok soRec1Wrapped)
    ∧ demoSales = demoSales :=
  ⟨(updateNoop demoSales "SO1" [] "salesOrdersForOrderHub" "SO1" []).1
      soRec1Wrapped demoSales rfl,
   (updateNoop demoSales "SO1" [] "salesOrdersForOrderHub" "SO1" []).2.1
      [("HeaderId", Value.vStr "SO1")] demoSales rfl⟩

end OracleFusionMock
